import Mathlib

/-!
Verification development for the OracleKit prediction-market demo
(`frontend/src/app/api/market/{create,settle,resolve-discrete}/route.ts` and
the admin `market-status` route). The TypeScript handlers are shallowly
embedded: JSON values become the inductive `JSVal`, each route's effectful
control flow becomes a pure function from an environment record (the
responses of the ledger, the reasoning service and the external data
sources) to the list of issued calls plus the HTTP-level outcome, and a
thrown JS exception becomes `Except.error`. JS numbers are modelled as
integers (every numeric value these routes produce or compare is an
integer; fractional literals and NaN do not arise on the modelled paths and
are noted where JS could produce them).
-/

/-- The three verdict strings `"YES" | "NO" | "INCONCLUSIVE"` used across the
settlement pipeline. -/
inductive Outcome
  | YES
  | NO
  | INCONCLUSIVE
deriving DecidableEq, Repr

/-- A JSON/JS value as the routes handle them after `response.json()` /
`JSON.parse`. Numbers are modelled as integers (see the file comment);
object keys are assumed distinct, as `JSON.parse` deduplicates them. -/
inductive JSVal
  | null
  | undefined
  | bool (b : Bool)
  | num (n : Int)
  | str (s : String)
  | arr (xs : List JSVal)
  | obj (kvs : List (String × JSVal))

/-- `v === null || v === undefined`. -/
def isNullOrUndef : JSVal → Bool
  | .null => true
  | .undefined => true
  | _ => false

/-- `v === undefined`. -/
def isUndefined : JSVal → Bool
  | .undefined => true
  | _ => false

/-- `typeof v === "boolean"`. -/
def isBool : JSVal → Bool
  | .bool _ => true
  | _ => false

/-- The boolean payload, defaulting to `false` on non-booleans (used only
under an `isBool` guard). -/
def getBoolD : JSVal → Bool
  | .bool b => b
  | _ => false

/-- JS truthiness (`!v` negated). `NaN` is the one falsy number the integer
model cannot represent. -/
def truthy : JSVal → Bool
  | .null => false
  | .undefined => false
  | .bool b => b
  | .num n => n != 0
  | .str s => s != ""
  | .arr _ => true
  | .obj _ => true

/-- `v === 0` (strict equality against the number literal `0`). -/
def strictEqNum (v : JSVal) (n : Int) : Bool :=
  match v with
  | .num m => m == n
  | _ => false

/-- Property access `v[k]` on a non-null, non-undefined receiver: member
lookup on objects, index/`length` on arrays and strings (a non-canonical
numeric key such as `"00"` misses, as in JS), `undefined` everywhere else. -/
def jsIndex (v : JSVal) (k : String) : JSVal :=
  match v with
  | .null => .undefined
  | .undefined => .undefined
  | .bool _ => .undefined
  | .num _ => .undefined
  | .str s =>
    if k == "length" then .num s.length
    else
      match k.toNat? with
      | some i =>
        if toString i == k && i < s.data.length then .str (String.mk [s.data.getD i ' ']) else .undefined
      | none => .undefined
  | .arr xs =>
    if k == "length" then .num xs.length
    else
      match k.toNat? with
      | some i => if toString i == k then xs.getD i .undefined else .undefined
      | none => .undefined
  | .obj kvs =>
    match kvs.find? (fun p => p.1 == k) with
    | some p => p.2
    | none => .undefined

/-- Property access with JS exception semantics: reading a member of `null`
or `undefined` throws a `TypeError`, every other access yields a value. -/
def jsGetE (v : JSVal) (k : String) : Except Unit JSVal :=
  if isNullOrUndef v then .error () else .ok (jsIndex v k)

/-- `Number(v)` restricted to the integer model: `none` plays the role of
`NaN`. Strings parse as whole-string integers after trimming (fractional
strings, which no modelled data source produces here, land on `NaN`);
non-empty arrays other than via the empty array and objects are treated as
`NaN` (JS would go through `toString`, which no oracle spec exercises). -/
def toNumber : JSVal → Option Int
  | .num n => some n
  | .bool b => some (if b then 1 else 0)
  | .null => some 0
  | .undefined => none
  | .str s => if s.trim == "" then some 0 else s.trim.toInt?
  | .arr [] => some 0
  | .arr (_ :: _) => none
  | .obj _ => none

/-- JS `a < b`: lexicographic when both operands are strings, otherwise
numeric coercion with `NaN` making the comparison false. -/
def jsLess (a b : JSVal) : Bool :=
  match a, b with
  | .str s1, .str s2 => decide (s1 < s2)
  | _, _ =>
    match toNumber a, toNumber b with
    | some x, some y => decide (x < y)
    | _, _ => false

/-- JS `a <= b`, same coercion rules as `jsLess`. -/
def jsLeq (a b : JSVal) : Bool :=
  match a, b with
  | .str s1, .str s2 => decide (s1 ≤ s2)
  | _, _ =>
    match toNumber a, toNumber b with
    | some x, some y => decide (x ≤ y)
    | _, _ => false

/-- JS loose equality `a == b` on the value forms of this model: same-type
comparison for strings, `null`/`undefined` equal only each other, and
numeric coercion for the remaining primitive mixes. -/
def jsLooseEq (a b : JSVal) : Bool :=
  match a, b with
  | .str s, .str t => s == t
  | .null, .null => true
  | .null, .undefined => true
  | .undefined, .null => true
  | .undefined, .undefined => true
  | .null, _ => false
  | _, .null => false
  | .undefined, _ => false
  | _, .undefined => false
  | _, _ =>
    match toNumber a, toNumber b with
    | some x, some y => x == y
    | _, _ => false

/-- The `switch (operator)` of the discrete resolver (resolve-discrete
route, step 5): the six listed comparators, any other operator string
falling through to `result = false` like the `default` case. -/
def jsCompare (op : String) (a b : JSVal) : Bool :=
  if op == ">" then jsLess b a
  else if op == "<" then jsLess a b
  else if op == ">=" then jsLeq b a
  else if op == "<=" then jsLeq a b
  else if op == "==" then jsLooseEq a b
  else if op == "!=" then !jsLooseEq a b
  else false

/-- `parseInt` on a string: skip leading spaces, optional sign, then the
longest digit run; no digits means `NaN` (`none`). -/
def parseIntStr (s : String) : Option Int :=
  let cs := s.data.dropWhile (· = ' ')
  let signAndRest : Bool × List Char :=
    match cs with
    | '-' :: r => (true, r)
    | '+' :: r => (false, r)
    | r => (false, r)
  let ds := signAndRest.2.takeWhile Char.isDigit
  if ds.isEmpty then none
  else
    let n : Nat := ds.foldl (fun a c => a * 10 + (c.toNat - '0'.toNat)) 0
    some (if signAndRest.1 then -(n : Int) else (n : Int))

/-- `parseInt(v) || 0` as the sports branch uses it: numbers pass through,
strings parse their digit prefix, everything else (and a parse failure,
i.e. `NaN`) collapses to `0`. -/
def parseIntOr0 : JSVal → Int
  | .num n => n
  | .str s => (parseIntStr s).getD 0
  | _ => 0

/-- `v.toLowerCase()`: defined on strings, a thrown `TypeError` on every
other receiver. -/
def jsToLowerE : JSVal → Except Unit String
  | .str s => .ok s.toLower
  | _ => .error ()

/-- Whether `pat` occurs at the head of `l`. -/
def startsWithChars : List Char → List Char → Bool
  | [], _ => true
  | _ :: _, [] => false
  | a :: as, b :: bs => a == b && startsWithChars as bs

/-- Whether `pat` occurs inside `l` (scanning every suffix). -/
def containsChars (pat : List Char) : List Char → Bool
  | [] => pat.isEmpty
  | c :: rest => startsWithChars pat (c :: rest) || containsChars pat rest

/-- JS `hay.includes(needle)` on strings. -/
def strContains (hay needle : String) : Bool :=
  containsChars needle.data hay.data

/-! ## Extraction paths (resolve-discrete route, `extractValue`)
`extractValue` first strips a leading `$` (and one following dot) with
`path.replace(/^\$\.?/, '')`, then splits on the delimiters
`\.` or `\[['"]?` or `['"]?\]` and drops empty segments with
`.filter(Boolean)`. The splitter below walks the characters with exactly
those alternatives: a dot; an opening bracket with an optional quote glued
to it; a closing bracket with an optional quote glued in front. A quote not
adjacent to a bracket stays literal, as in the regex. -/

/-- The `replace(/^\$\.?/, '')` normalisation. -/
def stripDollar : List Char → List Char
  | '$' :: '.' :: rest => rest
  | '$' :: rest => rest
  | cs => cs

/-- Character-level splitter for `/\.|\[['"]?|['"]?\]/` (accumulator holds
the current segment reversed). -/
def splitSegs (cur : List Char) : List Char → List (List Char)
  | [] => [cur.reverse]
  | '.' :: rest => cur.reverse :: splitSegs [] rest
  | '[' :: '\'' :: rest => cur.reverse :: splitSegs [] rest
  | '[' :: '"' :: rest => cur.reverse :: splitSegs [] rest
  | '[' :: rest => cur.reverse :: splitSegs [] rest
  | '\'' :: ']' :: rest => cur.reverse :: splitSegs [] rest
  | '"' :: ']' :: rest => cur.reverse :: splitSegs [] rest
  | ']' :: rest => cur.reverse :: splitSegs [] rest
  | c :: rest => splitSegs (c :: cur) rest

/-- The segment list `extractValue` walks: strip the `$`, split, drop the
empty strings. -/
def splitPath (path : String) : List String :=
  ((splitSegs [] (stripDollar path.data)).map String.mk).filter (fun s => s != "")

/-- The traversal loop of `extractValue` with JS exception semantics: each
step checks `current === null || current === undefined` (returning
`undefined`) before the member access, so the access itself (`jsGetE`,
which throws only on null/undefined receivers) runs on a safe receiver. -/
def extractValueE : JSVal → List String → Except Unit JSVal
  | data, [] => .ok data
  | data, p :: ps =>
    if isNullOrUndef data then .ok .undefined
    else
      match jsGetE data p with
      | .error e => .error e
      | .ok v => extractValueE v ps

/-- The same traversal as a total function: what `extractValue` computes,
given that no step can throw. -/
def extractValue : JSVal → List String → JSVal
  | data, [] => data
  | data, p :: ps =>
    if isNullOrUndef data then .undefined
    else extractValue (jsIndex data p) ps

/-! ## Oracle specs (`lib/oracle-types.ts`) -/

/-- `OracleSourceConfig`: a whitelisted data source (headers omitted: the
modelled fetches carry them opaquely). -/
structure OracleSourceConfig where
  name : String
  endpoint : String
  params : List (String × String)

/-- `OracleSpec`, the discriminated union `DiscreteOracleSpec |
ContiguousOracleSpec`. The category is kept as the string the classifier
produced; `target_value` is `number | string | boolean` and is carried as a
`JSVal`. -/
inductive OracleSpecT
  | DISCRETE (category : String) (source : OracleSourceConfig)
      (extraction_path : String) (operator : String) (target_value : JSVal)
  | CONTIGUOUS (category : String) (natural_language_summary : String)

/-- `spec.type` as the string the JSON carries. -/
def specType : OracleSpecT → String
  | .DISCRETE _ _ _ _ _ => "DISCRETE"
  | .CONTIGUOUS _ _ => "CONTIGUOUS"

/-! ## Discrete resolution engine (resolve-discrete route) -/

/-- The `fallbackReason` codes of the route's typed fallback responses. -/
inductive FallbackReason
  | SPEC_NOT_FOUND
  | CONTIGUOUS_TYPE
  | SPORTS_TEAM_SEARCH_FAILED
  | SPORTS_TEAM_NOT_FOUND
  | NO_RECENT_GAMES
  | API_ERROR
  | EXTRACTION_ERROR
  | NO_VALUE
  | UNKNOWN_ERROR
deriving DecidableEq, Repr

/-- The environment one invocation of the discrete resolver observes:
the stored oracle spec (already `JSON.parse`d; `none` is a missing
Firestore document), the sports team-search response, and the data-source
response. URL construction is not modelled: it only addresses the fetch
whose payload `apiData` already is. -/
structure DiscreteEnv where
  spec? : Option OracleSpecT
  searchOk : Bool
  searchData : JSVal
  apiOk : Bool
  apiData : JSVal

/-- The success payload of the route that the settlement orchestrator
consumes (`outcome`, `confidence`); the evidence extras of the JSON
response (extracted value, api echo, sports context) do not feed any
control flow and are omitted. -/
structure DiscreteOk where
  outcome : Outcome
  confidence : Nat
deriving DecidableEq, Repr

/-- The two-step sports lookup (team search, then team name out of the
first hit). A thrown member access (`searchData.teams` on a null payload,
`.idTeam` on a missing first team) propagates to the route's outer catch,
which answers `UNKNOWN_ERROR`. -/
def sportsLookup (env : DiscreteEnv) : Except FallbackReason JSVal :=
  if !env.searchOk then .error .SPORTS_TEAM_SEARCH_FAILED
  else
    match jsGetE env.searchData "teams" with
    | .error _ => .error .UNKNOWN_ERROR
    | .ok teams =>
      if !truthy teams || strictEqNum (jsIndex teams "length") 0 then
        .error .SPORTS_TEAM_NOT_FOUND
      else
        let team0 := jsIndex teams "0"
        match jsGetE team0 "idTeam" with
        | .error _ => .error .UNKNOWN_ERROR
        | .ok _teamId =>
          match jsGetE team0 "strTeam" with
          | .error _ => .error .UNKNOWN_ERROR
          | .ok teamFullName => .ok teamFullName

/-- The team-attribution and win/loss computation on the last event:
case-insensitive substring matching of the home team's name against the
searched team's name assigns home/away, and the team's score is compared
with the opponent's. `toLowerCase` on a non-string receiver throws to the
outer catch (`UNKNOWN_ERROR`). -/
def teamWinBool (lastEvent teamNameVal : JSVal) : Except FallbackReason JSVal :=
  let homeTeam := jsIndex lastEvent "strHomeTeam"
  let homeScore := parseIntOr0 (jsIndex lastEvent "intHomeScore")
  let awayScore := parseIntOr0 (jsIndex lastEvent "intAwayScore")
  match jsToLowerE homeTeam with
  | .error _ => .error .UNKNOWN_ERROR
  | .ok homeL =>
    match jsToLowerE teamNameVal with
    | .error _ => .error .UNKNOWN_ERROR
    | .ok teamL =>
      let isHomeTeam := strContains homeL teamL || strContains teamL homeL
      let teamScore := if isHomeTeam then homeScore else awayScore
      let opponentScore := if isHomeTeam then awayScore else homeScore
      .ok (.bool (decide (opponentScore < teamScore)))

/-- The sports extraction: `data.results?.[0]`, the no-recent-games guard,
score parsing with `parseInt(...) || 0`, then the win/loss boolean. -/
def sportsExtract (env : DiscreteEnv) (teamNameVal : JSVal) : Except FallbackReason JSVal :=
  match jsGetE env.apiData "results" with
  | .error _ => .error .UNKNOWN_ERROR
  | .ok results =>
    let lastEvent := if isNullOrUndef results then JSVal.undefined else jsIndex results "0"
    if !truthy lastEvent then .error .NO_RECENT_GAMES
    else teamWinBool lastEvent teamNameVal

/-- The generic extraction step with its guarding `try`/`catch`: a thrown
extraction error would answer `EXTRACTION_ERROR`. -/
def genericExtract (apiData : JSVal) (path : String) : Except FallbackReason JSVal :=
  match extractValueE apiData (splitPath path) with
  | .error _ => .error .EXTRACTION_ERROR
  | .ok v => .ok v

/-- The route body up to the comparison result: spec lookup and type check,
the sports pre-step, the data fetch, extraction, the `NO_VALUE` guard, and
the comparison (`teamWon` taken directly for the sports category). -/
def resolveToBool (env : DiscreteEnv) : Except FallbackReason Bool :=
  match env.spec? with
  | none => .error .SPEC_NOT_FOUND
  | some (.CONTIGUOUS _ _) => .error .CONTIGUOUS_TYPE
  | some (.DISCRETE category _source extraction_path operator target_value) =>
    let pre : Except FallbackReason (Option JSVal) :=
      if category == "SPORTS_SCORE" then (sportsLookup env).map some else .ok none
    match pre with
    | .error r => .error r
    | .ok sports? =>
      if !env.apiOk then .error .API_ERROR
      else
        let ev : Except FallbackReason JSVal :=
          match sports? with
          | some teamNameVal => sportsExtract env teamNameVal
          | none => genericExtract env.apiData extraction_path
        match ev with
        | .error r => .error r
        | .ok extracted =>
          if isNullOrUndef extracted then .error .NO_VALUE
          else
            .ok (if category == "SPORTS_SCORE" && isBool extracted then getBoolD extracted
                 else jsCompare operator extracted target_value)

/-- The route's success response: `outcome = result ? "YES" : "NO"` and
`confidence = 10000` (the route's comment: discrete resolutions are
deterministic). -/
def mkDiscreteOk (result : Bool) : DiscreteOk :=
  { outcome := if result then .YES else .NO, confidence := 10000 }

/-- The whole discrete resolution: a fallback-reason error or a success
payload. -/
def resolveDiscrete (env : DiscreteEnv) : Except FallbackReason DiscreteOk :=
  (resolveToBool env).map mkDiscreteOk

/-! ## Consensus engine (settle route, consortium block and `askGemini`) -/

/-- What one judge call yields before local normalisation: `failure` is a
thrown reasoning-service error or a `JSON.parse` failure (the `catch` of
`askGemini`); `parsed` carries the JSON's `result` string and its
`confidence` field, `some` exactly when `Number.isInteger(p.confidence)`
holds. -/
inductive JudgeResponse
  | failure
  | parsed (result : String) (confidence : Option Int)
deriving DecidableEq, Repr

/-- A normalised judge vote as `askGemini` returns it (the raw grounding
trace it also returns feeds only the audit record). -/
structure Vote where
  result : Outcome
  confidence : Int
deriving DecidableEq, Repr

/-- The membership test `["YES","NO","INCONCLUSIVE"].includes(p.result)`
followed by the cast: an in-range string maps to its verdict, anything else
to INCONCLUSIVE. -/
def parseOutcome (s : String) : Outcome :=
  if s == "YES" then .YES
  else if s == "NO" then .NO
  else if s == "INCONCLUSIVE" then .INCONCLUSIVE
  else .INCONCLUSIVE

/-- `askGemini`'s normalisation: a caught failure scores INCONCLUSIVE with
confidence 0; a parsed response keeps its integer confidence (0 when the
field is missing or not an integer) and squashes an out-of-range result
string to INCONCLUSIVE. -/
def askGemini : JudgeResponse → Vote
  | .failure => { result := .INCONCLUSIVE, confidence := 0 }
  | .parsed s c => { result := parseOutcome s, confidence := c.getD 0 }

/-- The per-option count the `results.forEach` tally accumulates. -/
def countVotes (votes : List Vote) (o : Outcome) : Nat :=
  (votes.filter (fun v => v.result == o)).length

/-- The winner loop over `Object.entries(tally)`: take an entry strictly
above the running maximum, fall to INCONCLUSIVE on an entry equal to it
(the route's comment: a tie implies ambiguity). The accumulator starts at
`("INCONCLUSIVE", 0)`. -/
def winnerFold (entries : List (Outcome × Nat)) : Outcome × Nat :=
  entries.foldl
    (fun acc e =>
      if acc.2 < e.2 then (e.1, e.2)
      else if e.2 == acc.2 then (Outcome.INCONCLUSIVE, acc.2)
      else acc)
    (Outcome.INCONCLUSIVE, 0)

/-- The object literal `{ "YES": 0, "NO": 0, "INCONCLUSIVE": 0 }` fixes the
entry order YES, NO, INCONCLUSIVE that `Object.entries` yields. -/
def tallyEntries (cY cN cI : Nat) : List (Outcome × Nat) :=
  [(.YES, cY), (.NO, cN), (.INCONCLUSIVE, cI)]

/-- All six examination orders of the three tally entries, for the
order-independence part of the aggregation property. -/
def tallyOrders (cY cN cI : Nat) : List (List (Outcome × Nat)) :=
  [[(.YES, cY), (.NO, cN), (.INCONCLUSIVE, cI)],
   [(.YES, cY), (.INCONCLUSIVE, cI), (.NO, cN)],
   [(.NO, cN), (.YES, cY), (.INCONCLUSIVE, cI)],
   [(.NO, cN), (.INCONCLUSIVE, cI), (.YES, cY)],
   [(.INCONCLUSIVE, cI), (.YES, cY), (.NO, cN)],
   [(.INCONCLUSIVE, cI), (.NO, cN), (.YES, cY)]]

/-- Whether the top tally count is attained by two or more options. -/
def topTied (cY cN cI : Nat) : Bool :=
  let m := max cY (max cN cI)
  decide (2 ≤ (if cY = m then 1 else 0) + (if cN = m then 1 else 0) + (if cI = m then 1 else 0))

/-- The structured result the settle handler binds to `parsed`
(the evidence extras carried alongside do not feed control flow). -/
structure ParsedResult where
  result : Outcome
  confidence : Int
deriving DecidableEq, Repr

/-- The consortium block over the judge responses: normalise each with
`askGemini`, tally, pick the winner over the fixed entry order, and floor
the mean confidence over `judgeCount = 5` (`Math.floor` on an integer sum
divided by 5 is floor division, `Int.fdiv`). -/
def consortiumResult (rs : List JudgeResponse) : ParsedResult :=
  let results := rs.map askGemini
  let totalConfidence := results.foldl (fun acc r => acc + r.confidence) 0
  let winner := (winnerFold (tallyEntries (countVotes results .YES) (countVotes results .NO)
      (countVotes results .INCONCLUSIVE))).1
  { result := winner, confidence := Int.fdiv totalConfidence 5 }

/-! ## Submission pipeline (settle route, step 4-5) -/

/-- `mapOutcomeToUint` (settle route, lines 32-38): NO to 1, YES to 2,
INCONCLUSIVE to 3. -/
def mapOutcomeToUint : Outcome → Nat
  | .NO => 1
  | .YES => 2
  | .INCONCLUSIVE => 3

/-- The inline `outcomeEnum` computation before `onReport`: default 3
(Inconclusive), overridden to 1 for NO and 2 for YES. -/
def outcomeEnum : Outcome → Nat
  | .NO => 1
  | .YES => 2
  | .INCONCLUSIVE => 3

/-- The dead `validResult` binding the handler computes at line 269 and
never reads (YES to 3, NO to 2, otherwise 0). -/
def settleValidResult : Outcome → Nat
  | .YES => 3
  | .NO => 2
  | .INCONCLUSIVE => 0

/-- `Math.min(Math.max(parsed.confidence || 0, 0), 10000)`: the `|| 0`
collapses a missing (or `NaN`) confidence to 0 before clamping into
[0, 10000]. -/
def clampConfidence (c : Option Int) : Int :=
  min (max (c.getD 0) 0) 10000

/-! ## Settlement orchestrator (settle route handler) -/

/-- The calls one settlement invocation can issue: the `requestSettlement`
ledger transaction, the internal fetch of the discrete resolver, one
reasoning-service call per judge, and the `onReport` ledger transaction
with its encoded payload. The `getMarket` view reads and the Firestore
audit write (non-fatal by the route's own catch) are not listed: no claim
counts them. -/
inductive SettleAction
  | requestSettlement
  | discreteCall
  | judgeCall (i : Nat)
  | onReport (outcomeCode : Nat) (confidence : Int)
deriving DecidableEq, Repr

/-- The HTTP-level outcome of one settlement invocation: an early JSON
error response, or the success response after submitting the report. -/
inductive SettleOutcome
  | rejected (httpStatus : Nat) (msg : String)
  | success (outcomeCode : Nat) (confidence : Int)
deriving DecidableEq, Repr

/-- One settlement invocation's environment: the request and configuration
guards, the market status `getMarket` returns, the question string, the
discrete resolver's environment (`none` when that internal fetch itself
throws), whether `GEMINI_API_KEY` is set, the `Math.random` draw of the
mock path, and the judge responses by index. Ledger transactions are
assumed to confirm: a thrown `onReport`/`requestSettlement` lands in the
route's outer catch and is outside the modelled claims. -/
structure SettleEnv where
  marketIdPresent : Bool
  configOk : Bool
  status : Nat
  question : String
  discreteEnv : Option DiscreteEnv
  geminiKey : Bool
  mockPick : Bool
  judge : Nat → JudgeResponse

/-- The contiguous block: the mock path when the reasoning key is missing
(uniform YES/NO at confidence 9999), the 5-judge consortium when the
question carries the `[CONSORTIUM]` tag, the single judge otherwise. -/
def contiguousPhase (env : SettleEnv) : List SettleAction × ParsedResult :=
  if !env.geminiKey then
    ([], { result := if env.mockPick then .YES else .NO, confidence := 9999 })
  else if strContains env.question "[CONSORTIUM]" then
    ((List.range 5).map SettleAction.judgeCall, consortiumResult ((List.range 5).map env.judge))
  else
    ([SettleAction.judgeCall 0],
      { result := (askGemini (env.judge 0)).result, confidence := (askGemini (env.judge 0)).confidence })

/-- Try discrete first: a success that is not a fallback wins outright
(`parsed` is set from its outcome/confidence and no judge runs); any
fallback, error response or thrown fetch falls through to the contiguous
block. -/
def resolutionPhase (env : SettleEnv) : List SettleAction × ParsedResult :=
  match env.discreteEnv.map resolveDiscrete with
  | some (Except.ok s) => ([], { result := s.outcome, confidence := (s.confidence : Int) })
  | _ => contiguousPhase env

/-- The settle handler: the `marketId` and configuration guards, then
`requestSettlement` only when the status is Open (0) — any other status
merely skips that call and the flow continues — then the discrete fetch,
the contiguous block when needed, and always one `onReport` submission with
the encoded outcome and the clamped confidence. -/
def settleRun (env : SettleEnv) : List SettleAction × SettleOutcome :=
  if !env.marketIdPresent then ([], .rejected 400 "No marketId")
  else if !env.configOk then
    ([], .rejected 500 "Server configuration missing (RPC, Key, or Address)")
  else
    let reqActs := if env.status = 0 then [SettleAction.requestSettlement] else []
    let rp := resolutionPhase env
    let code := outcomeEnum rp.2.result
    let conf := clampConfidence (some rp.2.confidence)
    (reqActs ++ [SettleAction.discreteCall] ++ rp.1 ++ [SettleAction.onReport code conf],
     .success code conf)

/-! ## Creation and nonce retry (create route, lines 121-156) -/

/-- How the `catch` classifies a failed creation attempt:
`txError.message?.includes("nonce")` holds (`nonceConflict`) or not
(`other`). A missing message is falsy and counts as `other`. -/
inductive TxErrorKind
  | nonceConflict
  | other
deriving DecidableEq, Repr

/-- The observable steps of the creation loop: a transaction submission
with its explicit nonce, and the fixed 1-second backoff
(`setTimeout(r, 1000)`) before a retry. -/
inductive CreateEvent
  | txAttempt (nonce : Nat)
  | backoff
deriving DecidableEq, Repr

/-- How the creation loop ends: a confirmed transaction at some nonce, a
re-thrown error, or the loop-exhausted guard (`if (!tx) throw ...`, which
the retry condition in fact never lets happen). -/
inductive CreateResult
  | created (nonce : Nat)
  | thrown (e : TxErrorKind)
  | exhausted
deriving DecidableEq, Repr

/-- The `while (attempts < maxAttempts)` loop: attempt `attempts` submits
with nonce `base + attempts` (`base` is the account's pending transaction
count); on failure, `attempts` is incremented and the loop continues after
a 1-second backoff only when the error is a nonce conflict and attempts
remain, otherwise the error is re-thrown. `res k` is what the ledger does
with the `k`-th (0-based) submission. -/
def createLoop (base : Nat) (res : Nat → Option TxErrorKind) (attempts : Nat) :
    List CreateEvent × CreateResult :=
  if h : attempts < 3 then
    match res attempts with
    | none => ([.txAttempt (base + attempts)], .created (base + attempts))
    | some e =>
      if e = .nonceConflict ∧ attempts + 1 < 3 then
        let rest := createLoop base res (attempts + 1)
        (.txAttempt (base + attempts) :: .backoff :: rest.1, rest.2)
      else ([.txAttempt (base + attempts)], .thrown e)
  else ([], .exhausted)
termination_by 3 - attempts
decreasing_by omega

/-- Modelled from the claim's words, for comparison with `createLoop`:
attempt 1 uses nonce `base`; a nonce-conflict failure before the third
attempt backs off once and retries at the next nonce; any other failure,
or a nonce failure on the third attempt, aborts at once with that error. -/
def createRetryClaimSpec (base : Nat) (res : Nat → Option TxErrorKind) :
    List CreateEvent × CreateResult :=
  match res 0 with
  | none => ([.txAttempt base], .created base)
  | some .other => ([.txAttempt base], .thrown .other)
  | some .nonceConflict =>
    match res 1 with
    | none => ([.txAttempt base, .backoff, .txAttempt (base + 1)], .created (base + 1))
    | some .other => ([.txAttempt base, .backoff, .txAttempt (base + 1)], .thrown .other)
    | some .nonceConflict =>
      match res 2 with
      | none =>
        ([.txAttempt base, .backoff, .txAttempt (base + 1), .backoff, .txAttempt (base + 2)],
         .created (base + 2))
      | some e =>
        ([.txAttempt base, .backoff, .txAttempt (base + 1), .backoff, .txAttempt (base + 2)],
         .thrown e)

/-- The nonces of the submissions in a creation trace, in order. -/
def txNonces : List CreateEvent → List Nat
  | [] => []
  | .txAttempt n :: rest => n :: txNonces rest
  | .backoff :: rest => txNonces rest

/-! ## Oracle classifier (create route, lines 158-218) -/

/-- The classifier's response once a JSON object was parsed out of the
model's text: the `type` and `category` strings and the optional `spec`
fields the route reads (each `none` when absent, standing for a missing
field behind the `?.` accesses). -/
structure ClassifierParsed where
  ty : String
  category : String
  natural_language_summary : Option String
  extraction_path : Option String
  comparison : Option (String × JSVal)
  resolution_timestamp : Option String
  api_params : List (String × String)

/-- The `TRUSTED_SOURCES` whitelist of `lib/oracle-types.ts` (the two
`null` entries, DATE_EVENT and GENERAL_AI, and any unknown category give
`none`). -/
def TRUSTED_SOURCES (category : String) : Option OracleSourceConfig :=
  if category == "CRYPTO_PRICE" then
    some { name := "CoinGecko", endpoint := "https://api.coingecko.com/api/v3/simple/price", params := [] }
  else if category == "FOREX_RATE" then
    some { name := "ExchangeRate-API", endpoint := "https://open.er-api.com/v6/latest/USD", params := [] }
  else if category == "WEATHER" then
    some { name := "wttr.in", endpoint := "https://wttr.in", params := [] }
  else if category == "SPORTS_SCORE" then
    some { name := "TheSportsDB", endpoint := "https://www.thesportsdb.com/api/v1/json/3/searchteams.php", params := [] }
  else none

/-- Building the `OracleSpec` from a parsed classification: a DISCRETE
answer merges the whitelisted source with the spec's api_params (an
unknown category degrades to the `Unknown` source) and fills the defaulted
fields; anything else becomes a CONTIGUOUS spec. The `resolution_timestamp`
default (`new Date().toISOString()`) is irrelevant to control flow and is
not carried. -/
def buildSpec (p : ClassifierParsed) : OracleSpecT :=
  if p.ty == "DISCRETE" then
    let source :=
      match TRUSTED_SOURCES p.category with
      | some cfg => { cfg with params := cfg.params ++ p.api_params }
      | none => { name := "Unknown", endpoint := "", params := [] }
    let cmp := p.comparison.getD ("==", .bool true)
    .DISCRETE p.category source (p.extraction_path.getD "$") cmp.1 cmp.2
  else
    .CONTIGUOUS "GENERAL_AI" (p.natural_language_summary.getD "Resolved via AI reasoning and web search.")

/-- The fallback spec the classification `catch` installs. -/
def contiguousFallbackSpec : OracleSpecT :=
  .CONTIGUOUS "GENERAL_AI" "Resolved via AI reasoning (classification failed)."

/-- The classification block's environment, reached only after the on-chain
creation succeeded: whether `GEMINI_API_KEY` is set, the classifier call's
outcome (`none` when the model call or the JSON parse threw), and whether
the Firestore `setDoc` succeeds. -/
structure ClassifyEnv where
  geminiKey : Bool
  classifierResponse : Option ClassifierParsed
  persistOk : Bool

/-- What the classification block leaves behind: the bound `oracleSpec`,
whether the spec was persisted keyed by marketId, and the response's
success flag and `oracleType` string. -/
structure ClassifyOutput where
  oracleSpec : Option OracleSpecT
  persisted : Bool
  success : Bool
  oracleType : String

/-- The classification block: skipped without a key; a thrown
classification (or a thrown `setDoc`, both inside the same `try`) is
caught, logs, and replaces the spec with the contiguous fallback — the
fallback itself is never written to Firestore — and the route still
answers success with `oracleType = oracleSpec?.type || "UNKNOWN"`. -/
def classifyStep (env : ClassifyEnv) : ClassifyOutput :=
  if !env.geminiKey then
    { oracleSpec := none, persisted := false, success := true, oracleType := "UNKNOWN" }
  else
    match env.classifierResponse with
    | none =>
      { oracleSpec := some contiguousFallbackSpec, persisted := false, success := true,
        oracleType := "CONTIGUOUS" }
    | some p =>
      let spec := buildSpec p
      if env.persistOk then
        { oracleSpec := some spec, persisted := true, success := true, oracleType := specType spec }
      else
        { oracleSpec := some contiguousFallbackSpec, persisted := false, success := true,
          oracleType := "CONTIGUOUS" }

/-! ## Admin manual settlement (admin market-status route) -/

/-- The ledger transactions and audit writes the admin route can issue, in
order of appearance: the `getMarket` view read, `requestSettlement`,
`submitReport(marketId, outcome, confidence, responseId)`,
`settleMarketManually(marketId, outcome)`, and the Firestore
update-or-insert pair for the settlements and demo collections. -/
inductive AdminAction
  | getMarket
  | requestSettlement
  | submitReport (outcomeCode : Nat) (confidence : Nat)
  | settleManually (outcomeCode : Nat)
  | auditUpdateSettlement
  | auditInsertSettlement
  | auditUpdateDemo
  | auditInsertDemo
deriving DecidableEq, Repr

/-- The admin route's HTTP-level outcome. -/
inductive AdminOutcome
  | rejected (httpStatus : Nat) (msg : String)
  | success (outcome : String)
deriving DecidableEq, Repr

/-- One admin invocation's environment: the request fields as JSON values
(`adminPassword` compared as a string), the configuration guard, the
market status `getMarket` returns, and whether prior settlement/demo audit
records exist. -/
structure AdminEnv where
  adminPassword : String
  marketId : JSVal
  outcome : JSVal
  source : JSVal
  configOk : Bool
  status : Nat
  settlementExists : Bool
  demoExists : Bool

/-- `["YES","NO"].includes(outcome)`: strict equality, so only the exact
strings pass. -/
def isYesNoStr (v : JSVal) : Bool :=
  match v with
  | .str s => s == "YES" || s == "NO"
  | _ => false

/-- `outcome === "YES" ? 2 : 1` (the route's comment: 0=None, 1=No,
2=Yes). -/
def adminOutcomeEnum (v : JSVal) : Nat :=
  match v with
  | .str s => if s == "YES" then 2 else 1
  | _ => 1

/-- The update-or-insert audit writes for the settlements and demo
collections. -/
def adminAuditActs (env : AdminEnv) : List AdminAction :=
  (if env.settlementExists then [AdminAction.auditUpdateSettlement]
   else [AdminAction.auditInsertSettlement]) ++
  (if env.demoExists then [AdminAction.auditUpdateDemo] else [AdminAction.auditInsertDemo])

/-- The per-status ledger calls: NeedsManual (3) settles manually, Open (0)
requests settlement then submits the report, SettlementRequested (1)
submits directly; admin settlements always carry confidence 10000. -/
def adminLedgerActs (oc : Nat) (status : Nat) : List AdminAction :=
  if status = 3 then [AdminAction.settleManually oc]
  else if status = 0 then [AdminAction.requestSettlement, AdminAction.submitReport oc 10000]
  else [AdminAction.submitReport oc 10000]

/-- The admin handler: password gate (401), missing-fields gate (400,
truthiness of marketId/outcome/source), the YES/NO-only outcome gate (400),
the configuration gate (500), then `getMarket`; a Settled (2) market is
rejected (400), an unknown status is rejected (400), and the three live
statuses issue their ledger calls followed by the audit writes. -/
def adminRun (env : AdminEnv) : List AdminAction × AdminOutcome :=
  if env.adminPassword != "admin" then ([], .rejected 401 "Invalid admin password")
  else if !truthy env.marketId || !truthy env.outcome || !truthy env.source then
    ([], .rejected 400 "Missing required fields: marketId, outcome, source")
  else if !isYesNoStr env.outcome then ([], .rejected 400 "Outcome must be YES or NO")
  else if !env.configOk then ([], .rejected 500 "Server misconfigured (missing env vars)")
  else if env.status = 2 then
    ([AdminAction.getMarket], .rejected 400 "Market is already fully settled")
  else if env.status = 3 ∨ env.status = 0 ∨ env.status = 1 then
    let oc := adminOutcomeEnum env.outcome
    (AdminAction.getMarket :: adminLedgerActs oc env.status ++ adminAuditActs env,
     .success (match env.outcome with | .str s => s | _ => ""))
  else ([AdminAction.getMarket], .rejected 400 "Unknown market status")

/-! ## Claim C3: discrete resolutions are YES/NO at confidence 10000 -/

/-- C3: for every successful discrete resolution (the engine returns
success rather than a fallback), the outcome is YES or NO — never
INCONCLUSIVE — and the confidence is exactly 10000 basis points, for every
category including the sports win/loss path. -/
theorem discrete_success_always_yes_no_10000 (env : DiscreteEnv) (s : DiscreteOk)
    (h : resolveDiscrete env = Except.ok s) :
    (s.outcome = Outcome.YES ∨ s.outcome = Outcome.NO) ∧
    s.outcome ≠ Outcome.INCONCLUSIVE ∧ s.confidence = 10000 := by
  unfold resolveDiscrete at h
  rcases hr : resolveToBool env with r | b <;> rw [hr] at h <;>
    simp [Except.map] at h
  subst h
  cases b <;> simp [mkDiscreteOk]

/-- A crypto-price environment on which the discrete engine succeeds
(the spec's Scenario A: live value 50000 against target 1). -/
def envScenarioA : DiscreteEnv :=
  { spec? := some (.DISCRETE "CRYPTO_PRICE"
      { name := "CoinGecko", endpoint := "https://api.coingecko.com/api/v3/simple/price", params := [] }
      "$.bitcoin.usd" ">" (.num 1)),
    searchOk := true, searchData := .null, apiOk := true,
    apiData := .obj [("bitcoin", .obj [("usd", .num 50000)])] }

/-- C3 witness: the theorem applied to the concrete Scenario A run. -/
theorem discrete_success_always_yes_no_10000_witness :
    resolveDiscrete envScenarioA = Except.ok { outcome := Outcome.YES, confidence := 10000 } ∧
    (({ outcome := Outcome.YES, confidence := 10000 } : DiscreteOk).outcome = Outcome.YES ∨
      ({ outcome := Outcome.YES, confidence := 10000 } : DiscreteOk).outcome = Outcome.NO) ∧
    ({ outcome := Outcome.YES, confidence := 10000 } : DiscreteOk).outcome ≠ Outcome.INCONCLUSIVE ∧
    ({ outcome := Outcome.YES, confidence := 10000 } : DiscreteOk).confidence = 10000 := by
  refine ⟨rfl, ?_⟩
  exact discrete_success_always_yes_no_10000 envScenarioA _ rfl

/-! ## Claim C5: judge failures are scored locally -/

/-- C5 counterexample: a judge response that parses but carries a result
string outside YES/NO/INCONCLUSIVE together with the integer confidence
5000 is scored INCONCLUSIVE with confidence 5000 — not with confidence 0
as the claim states. -/
theorem judge_out_of_range_keeps_confidence :
    askGemini (JudgeResponse.parsed "MAYBE" (some 5000)) =
      { result := Outcome.INCONCLUSIVE, confidence := 5000 } ∧
    ({ result := Outcome.INCONCLUSIVE, confidence := 5000 } : Vote) ≠
      { result := Outcome.INCONCLUSIVE, confidence := 0 } := by
  exact ⟨rfl, by decide⟩

/-- C5 amended: a thrown or unparsable judge response is scored
INCONCLUSIVE with confidence 0 locally; a parsed response whose result
string is out of range is scored INCONCLUSIVE but keeps its parsed integer
confidence (0 only when that field is missing or not an integer). In the
embedding `askGemini` is a total function, so no failure aborts the round. -/
theorem judge_failure_scored_locally :
    (askGemini JudgeResponse.failure = { result := Outcome.INCONCLUSIVE, confidence := 0 }) ∧
    (∀ (s : String) (c : Option Int), s ≠ "YES" → s ≠ "NO" → s ≠ "INCONCLUSIVE" →
      askGemini (JudgeResponse.parsed s c) =
        { result := Outcome.INCONCLUSIVE, confidence := c.getD 0 }) := by
  refine ⟨rfl, fun s c h1 h2 h3 => ?_⟩
  simp [askGemini, parseOutcome, h1, h2, h3]

/-- C5 witness: the amended theorem applied at a concrete out-of-range
response. -/
theorem judge_failure_scored_locally_witness :
    askGemini (JudgeResponse.parsed "HUH" (some 7)) =
      { result := Outcome.INCONCLUSIVE, confidence := 7 } := by
  have h := judge_failure_scored_locally
  exact h.2 "HUH" (some 7) (by decide) (by decide) (by decide)

/-! ## Claim C7: classifier errors degrade without failing creation -/

/-- A classification environment whose classifier call throws. -/
def envClassifyErr : ClassifyEnv :=
  { geminiKey := true, classifierResponse := none, persistOk := true }

/-- C7 counterexample: when the classifier errors, the creation response
still reports success and the spec degrades to the Contiguous fallback,
but that fallback OracleSpec is not persisted — contradicting the claim's
persistence conjunct. -/
theorem classifier_error_fallback_not_persisted :
    (classifyStep envClassifyErr).success = true ∧
    (classifyStep envClassifyErr).oracleSpec = some contiguousFallbackSpec ∧
    (classifyStep envClassifyErr).persisted = false :=
  ⟨rfl, rfl, rfl⟩

/-- C7 amended: on a classifier error the classification degrades to the
Contiguous fallback spec and the creation response still reports success,
but the fallback spec is not persisted (persistence happens only inside the
try block, on a successful classification and write). -/
theorem classifier_error_degrades_gracefully (env : ClassifyEnv)
    (hk : env.geminiKey = true) (hr : env.classifierResponse = none) :
    classifyStep env =
      { oracleSpec := some contiguousFallbackSpec, persisted := false,
        success := true, oracleType := "CONTIGUOUS" } := by
  simp [classifyStep, hk, hr]

/-- C7 witness: the amended theorem at the concrete erroring environment. -/
theorem classifier_error_degrades_gracefully_witness :
    classifyStep envClassifyErr =
      { oracleSpec := some contiguousFallbackSpec, persisted := false,
        success := true, oracleType := "CONTIGUOUS" } :=
  classifier_error_degrades_gracefully envClassifyErr rfl rfl

/-! ## Claim C6: creation nonce-retry policy -/

/-- One unfolding of the creation `while` loop, for `attempts < 3`. -/
lemma createLoop_step (base : Nat) (res : Nat → Option TxErrorKind) (a : Nat) (h : a < 3) :
    createLoop base res a =
      match res a with
      | none => ([.txAttempt (base + a)], .created (base + a))
      | some e =>
        if e = .nonceConflict ∧ a + 1 < 3 then
          let rest := createLoop base res (a + 1)
          (.txAttempt (base + a) :: .backoff :: rest.1, rest.2)
        else ([.txAttempt (base + a)], .thrown e) := by
  rw [createLoop]
  simp [h]

/-- C6: the creation loop behaves exactly as the claim describes
(`createRetryClaimSpec` transcribes the claim: at most 3 attempts, attempt
k at nonce base+k-1, a 1-second backoff before each retry, retries only on
nonce conflicts, immediate abort otherwise or on a third nonce failure);
consequently at most 3 transactions are submitted and the k-th submission
(0-based) carries nonce base+k. -/
theorem create_nonce_retry_policy (base : Nat) (res : Nat → Option TxErrorKind) :
    createLoop base res 0 = createRetryClaimSpec base res ∧
    (txNonces (createLoop base res 0).1).length ≤ 3 ∧
    txNonces (createLoop base res 0).1 =
      (List.range (txNonces (createLoop base res 0).1).length).map (base + ·) := by
  have main : createLoop base res 0 = createRetryClaimSpec base res := by
    rw [createLoop_step base res 0 (by omega), createLoop_step base res 1 (by omega),
        createLoop_step base res 2 (by omega)]
    unfold createRetryClaimSpec
    rcases res 0 with _ | e0
    · rfl
    · cases e0
      · rcases res 1 with _ | e1
        · simp
        · cases e1
          · rcases res 2 with _ | e2 <;> simp
          · simp
      · simp
  refine ⟨main, ?_, ?_⟩ <;> rw [main] <;> unfold createRetryClaimSpec <;>
    rcases res 0 with _ | e0 <;> try cases e0
  all_goals try (simp [txNonces]; done)
  all_goals (rcases res 1 with _ | e1 <;> try cases e1)
  all_goals try (simp [txNonces, List.range_succ]; done)
  all_goals (rcases res 2 with _ | e2)
  all_goals simp [txNonces, List.range_succ]

/-! ## Claims C2 and C4: consensus aggregation -/

/-- Per-option counts split a vote list: every vote's result is one of the
three options. -/
lemma countVotes_sum (votes : List Vote) :
    countVotes votes .YES + countVotes votes .NO + countVotes votes .INCONCLUSIVE =
      votes.length := by
  induction votes with
  | nil => rfl
  | cons v vs ih =>
    cases h : v.result <;>
      simp only [countVotes, List.filter_cons, h, beq_iff_eq, List.length_cons,
        reduceCtorEq, if_true, if_false, ite_true, ite_false, reduceIte] at ih ⊢ <;>
      omega

/-- The `forEach` accumulation of `totalConfidence` is the sum of the
votes' confidences. -/
lemma foldl_conf (votes : List Vote) (init : Int) :
    votes.foldl (fun acc r => acc + r.confidence) init =
      init + (votes.map (fun r => r.confidence)).sum := by
  induction votes generalizing init with
  | nil => simp
  | cons v vs ih => simp [ih, add_assoc]

set_option maxHeartbeats 2000000 in
/-- Exhaustive check over all tallies of 5 votes: the winner loop yields
the strict-majority option when one exists (with 5 votes over 3 options, a
unique leader always holds at least 3 votes, a strict majority), yields
INCONCLUSIVE whenever the top count is shared, and computes the same
winner under every examination order of the three entries. -/
lemma winner_spec_aux : ∀ (a b c : Fin 6), a.val + b.val + c.val = 5 →
    ((3 ≤ a.val → (winnerFold (tallyEntries a.val b.val c.val)).1 = Outcome.YES) ∧
     (3 ≤ b.val → (winnerFold (tallyEntries a.val b.val c.val)).1 = Outcome.NO) ∧
     (3 ≤ c.val → (winnerFold (tallyEntries a.val b.val c.val)).1 = Outcome.INCONCLUSIVE) ∧
     (topTied a.val b.val c.val = true →
       (winnerFold (tallyEntries a.val b.val c.val)).1 = Outcome.INCONCLUSIVE) ∧
     (tallyOrders a.val b.val c.val).all
       (fun l => (winnerFold l).1 == (winnerFold (tallyEntries a.val b.val c.val)).1) = true) := by
  decide

/-- C2: over the 5 judge votes of a consensus round, the aggregated
outcome is the option with the strict majority (at least 3 of 5) of votes;
whenever the top count is shared by two or more options the outcome is
INCONCLUSIVE; and the winner does not depend on the order in which the
tally entries are examined. -/
theorem consensus_majority_or_tie (rs : List JudgeResponse) (h5 : rs.length = 5) :
    (3 ≤ countVotes (rs.map askGemini) .YES →
      (consortiumResult rs).result = Outcome.YES) ∧
    (3 ≤ countVotes (rs.map askGemini) .NO →
      (consortiumResult rs).result = Outcome.NO) ∧
    (3 ≤ countVotes (rs.map askGemini) .INCONCLUSIVE →
      (consortiumResult rs).result = Outcome.INCONCLUSIVE) ∧
    (topTied (countVotes (rs.map askGemini) .YES) (countVotes (rs.map askGemini) .NO)
        (countVotes (rs.map askGemini) .INCONCLUSIVE) = true →
      (consortiumResult rs).result = Outcome.INCONCLUSIVE) ∧
    (tallyOrders (countVotes (rs.map askGemini) .YES) (countVotes (rs.map askGemini) .NO)
        (countVotes (rs.map askGemini) .INCONCLUSIVE)).all
      (fun l => (winnerFold l).1 == (consortiumResult rs).result) = true := by
  have hsum := countVotes_sum (rs.map askGemini)
  rw [List.length_map, h5] at hsum
  have hY : countVotes (rs.map askGemini) .YES < 6 := by omega
  have hN : countVotes (rs.map askGemini) .NO < 6 := by omega
  have hI : countVotes (rs.map askGemini) .INCONCLUSIVE < 6 := by omega
  have key := winner_spec_aux ⟨_, hY⟩ ⟨_, hN⟩ ⟨_, hI⟩ hsum
  have hres : (consortiumResult rs).result =
      (winnerFold (tallyEntries (countVotes (rs.map askGemini) .YES)
        (countVotes (rs.map askGemini) .NO)
        (countVotes (rs.map askGemini) .INCONCLUSIVE))).1 := rfl
  rw [hres]
  exact key

/-- The spec's Scenario C judge panel: votes YES, YES, NO, NO,
INCONCLUSIVE — a 2-2 tie at the top. -/
def judgesScenarioC : List JudgeResponse :=
  [.parsed "YES" (some 8000), .parsed "YES" (some 9000), .parsed "NO" (some 7000),
   .parsed "NO" (some 6000), .parsed "INCONCLUSIVE" (some 5000)]

/-- C2 witness: the theorem applied to the Scenario C panel forces the
INCONCLUSIVE verdict. -/
theorem consensus_majority_or_tie_witness :
    (consortiumResult judgesScenarioC).result = Outcome.INCONCLUSIVE := by
  have h := consensus_majority_or_tie judgesScenarioC rfl
  exact h.2.2.2.1 (by decide)

/-- Modelled from the claim's words: a judge's raw confidence contribution
to the mean — 0 for a response that failed to parse or carried a
non-integer confidence, the raw integer otherwise. -/
def judgeRawConfidence : JudgeResponse → Int
  | .failure => 0
  | .parsed _ c => c.getD 0

/-- C4: a consensus round's final confidence is the floor of the sum of
the 5 judges' raw confidences divided by 5 (`Math.floor` of an integer sum
over the constant `judgeCount = 5` is integer floor division), with failed
or non-integer judges contributing 0. -/
theorem consensus_confidence_floor_mean (rs : List JudgeResponse) (h5 : rs.length = 5) :
    (consortiumResult rs).confidence = Int.fdiv ((rs.map judgeRawConfidence).sum) 5 := by
  have hfold : (consortiumResult rs).confidence =
      Int.fdiv (((rs.map askGemini).foldl (fun acc r => acc + r.confidence) 0)) 5 := rfl
  rw [hfold, foldl_conf, List.map_map]
  have hcomp : ((fun r : Vote => r.confidence) ∘ askGemini) = judgeRawConfidence := by
    funext r; cases r <;> rfl
  rw [hcomp]
  simp

/-- A mixed judge panel: two clean YES votes, one thrown call, one NO at
7001, one out-of-range result with a non-integer confidence. Sum 24001,
floor mean 4800. -/
def judgesMixed : List JudgeResponse :=
  [.parsed "YES" (some 8000), .failure, .parsed "NO" (some 7001), .parsed "MAYBE" none,
   .parsed "YES" (some 9000)]

/-- C4 witness: the theorem applied to the mixed panel. -/
theorem consensus_confidence_floor_mean_witness :
    (consortiumResult judgesMixed).confidence = 4800 := by
  have h := consensus_confidence_floor_mean judgesMixed rfl
  rw [h]; decide

/-! ## Claim C9: the path evaluator is total; EXTRACTION_ERROR is dead -/

/-- The guarded traversal never throws: it computes exactly the total
function `extractValue`. -/
lemma extractValueE_ok (d : JSVal) (ps : List String) :
    extractValueE d ps = .ok (extractValue d ps) := by
  induction ps generalizing d with
  | nil => rfl
  | cons p ps ih =>
    by_cases h : isNullOrUndef d = true
    · simp [extractValueE, extractValue, h]
    · simp only [Bool.not_eq_true] at h
      simp [extractValueE, extractValue, h, jsGetE, ih]

/-- Traversing from `undefined` stays `undefined`. -/
lemma extractValue_undefined (ps : List String) : extractValue .undefined ps = .undefined := by
  cases ps <;> rfl

/-- The guarded generic extraction step never takes its catch branch. -/
lemma genericExtract_ok (d : JSVal) (path : String) :
    genericExtract d path = .ok (extractValue d (splitPath path)) := by
  simp [genericExtract, extractValueE_ok]

/-- The sports team lookup fails only with its three reason codes. -/
lemma sportsLookup_err (env : DiscreteEnv) (r : FallbackReason)
    (h : sportsLookup env = .error r) :
    r = .SPORTS_TEAM_SEARCH_FAILED ∨ r = .SPORTS_TEAM_NOT_FOUND ∨ r = .UNKNOWN_ERROR := by
  unfold sportsLookup at h
  split at h
  · simp_all
  · split at h <;> try simp_all
    split at h <;> try simp_all
    split at h <;> try simp_all
    split at h <;> simp_all

/-- The win/loss computation fails only with `UNKNOWN_ERROR`. -/
lemma teamWinBool_err (le tn : JSVal) (r : FallbackReason)
    (h : teamWinBool le tn = .error r) : r = .UNKNOWN_ERROR := by
  unfold teamWinBool at h
  split at h <;> try simp_all
  all_goals (split at h <;> simp_all)

/-- The sports extraction fails only with its two reason codes. -/
lemma sportsExtract_err (env : DiscreteEnv) (tn : JSVal) (r : FallbackReason)
    (h : sportsExtract env tn = .error r) :
    r = .NO_RECENT_GAMES ∨ r = .UNKNOWN_ERROR := by
  unfold sportsExtract at h
  split at h <;> try simp_all
  all_goals split at h
  all_goals split at h
  all_goals first
    | exact Or.inr (teamWinBool_err _ _ _ h)
    | simp_all

/-- No error path of the discrete resolver carries `EXTRACTION_ERROR`. -/
lemma resolveToBool_no_extraction (env : DiscreteEnv) (r : FallbackReason)
    (h : resolveToBool env = .error r) : r ≠ .EXTRACTION_ERROR := by
  intro hEq
  subst hEq
  unfold resolveToBool at h
  split at h <;> try simp_all
  split at h
  · rename_i r0 hpre
    simp at h
    subst h
    split at hpre
    · rcases hl : sportsLookup env with rl | vl <;> rw [hl] at hpre <;>
        simp [Except.map] at hpre
      subst hpre
      rcases sportsLookup_err env _ hl with h | h | h <;> simp_all
    · simp at hpre
  · rename_i sports? hpre
    split at h
    · simp at h
    · split at h
      · rename_i rv hev
        split at hev
        · rcases sportsExtract_err env _ rv hev with he | he <;> simp_all
        · rw [genericExtract_ok] at hev
          simp at hev
      · split at h <;> simp_all

/-- C9: the path evaluator is total — the guarded traversal equals the
total `extractValue` on every input, returning `undefined` whenever an
intermediate value is null/undefined or a segment is missing — so the
`EXTRACTION_ERROR` catch branch is unreachable on every environment, and a
missing value on the generic path surfaces as the `NO_VALUE` fallback. -/
theorem extractValue_total_and_fallbacks :
    (∀ (d : JSVal) (ps : List String), extractValueE d ps = Except.ok (extractValue d ps)) ∧
    (∀ (d : JSVal) (p : String) (ps : List String),
      isNullOrUndef d = true ∨ isUndefined (jsIndex d p) = true →
      extractValue d (p :: ps) = JSVal.undefined) ∧
    (∀ env : DiscreteEnv, resolveDiscrete env ≠ Except.error FallbackReason.EXTRACTION_ERROR) ∧
    (∀ (env : DiscreteEnv) (category : String) (source : OracleSourceConfig)
        (path operator : String) (tv : JSVal),
      env.spec? = some (OracleSpecT.DISCRETE category source path operator tv) →
      (category == "SPORTS_SCORE") = false →
      env.apiOk = true →
      isNullOrUndef (extractValue env.apiData (splitPath path)) = true →
      resolveDiscrete env = Except.error FallbackReason.NO_VALUE) := by
  refine ⟨extractValueE_ok, ?_, ?_, ?_⟩
  · intro d p ps hd
    rcases hd with hd | hd
    · simp [extractValue, hd]
    · by_cases hn : isNullOrUndef d = true
      · simp [extractValue, hn]
      · simp only [Bool.not_eq_true] at hn
        have : jsIndex d p = JSVal.undefined := by
          cases hj : jsIndex d p <;> simp [isUndefined, hj] at hd <;> rfl
        simp [extractValue, hn, this, extractValue_undefined]
  · intro env hc
    unfold resolveDiscrete at hc
    rcases hr : resolveToBool env with rr | b <;> rw [hr] at hc <;>
      simp [Except.map] at hc
    exact resolveToBool_no_extraction env rr hr hc
  · intro env category source path operator tv hspec hcat hapi hnv
    unfold resolveDiscrete resolveToBool
    rw [hspec]
    simp only [hcat, Bool.false_eq_true, if_false, hapi, Bool.not_true]
    rw [genericExtract_ok]
    simp [hnv, Except.map]

/-- A crypto spec whose payload misses the configured path. -/
def envMissingValue : DiscreteEnv :=
  { spec? := some (.DISCRETE "CRYPTO_PRICE"
      { name := "CoinGecko", endpoint := "https://api.coingecko.com/api/v3/simple/price", params := [] }
      "$.bitcoin.usd" ">" (.num 1)),
    searchOk := true, searchData := .null, apiOk := true,
    apiData := .obj [("ethereum", .obj [("usd", .num 3)])] }

/-- C9 witness: the theorem's NO_VALUE clause at a concrete missing-path
environment. -/
theorem extractValue_total_and_fallbacks_witness :
    resolveDiscrete envMissingValue = Except.error FallbackReason.NO_VALUE := by
  have h := extractValue_total_and_fallbacks
  exact h.2.2.2 envMissingValue "CRYPTO_PRICE"
    { name := "CoinGecko", endpoint := "https://api.coingecko.com/api/v3/simple/price", params := [] }
    "$.bitcoin.usd" ">" (.num 1) rfl rfl rfl (by decide)

/-! ## Claims C8 and C1: submission encoding and the settled-status flow -/

/-- Every action the contiguous block issues is a judge call. -/
lemma contiguousPhase_acts (env : SettleEnv) (a : SettleAction)
    (h : a ∈ (contiguousPhase env).1) : ∃ i, a = .judgeCall i := by
  unfold contiguousPhase at h
  split at h
  · simp at h
  · split at h
    · simp at h
      obtain ⟨i, _, hi⟩ := h
      exact ⟨i, hi.symm⟩
    · simp at h
      exact ⟨0, h⟩

/-- Every action the resolution phase issues is a judge call (the discrete
fetch itself is recorded by the orchestrator, not the phase). -/
lemma resolutionPhase_acts (env : SettleEnv) (a : SettleAction)
    (h : a ∈ (resolutionPhase env).1) : ∃ i, a = .judgeCall i := by
  unfold resolutionPhase at h
  split at h
  · simp at h
  · exact contiguousPhase_acts env a h

/-- C8: every `onReport` submission the settle handler issues carries an
outcome code in 1..3 (code 0 is never emitted; the inline encoding agrees
with `mapOutcomeToUint`: NO 1, YES 2, INCONCLUSIVE 3) and a confidence
equal to the resolved confidence clamped into [0, 10000], a missing
confidence counting as 0. -/
theorem report_encoding (env : SettleEnv) (c : Nat) (k : Int)
    (hmem : SettleAction.onReport c k ∈ (settleRun env).1) :
    (c = 1 ∨ c = 2 ∨ c = 3) ∧ c ≠ 0 ∧ 0 ≤ k ∧ k ≤ 10000 ∧
    (∀ r : Outcome, outcomeEnum r = mapOutcomeToUint r) ∧
    clampConfidence none = 0 ∧
    (∀ q : Int, clampConfidence (some q) = min (max q 0) 10000) := by
  have main : (c = 1 ∨ c = 2 ∨ c = 3) ∧ 0 ≤ k ∧ k ≤ 10000 := by
    unfold settleRun at hmem
    split at hmem
    · simp at hmem
    · split at hmem
      · simp at hmem
      · simp only [List.append_assoc, List.mem_append] at hmem
        rcases hmem with hmem | hmem | hmem | hmem
        · split at hmem <;> simp at hmem
        · simp at hmem
        · rcases resolutionPhase_acts env _ hmem with ⟨i, hi⟩
          simp at hi
        · simp at hmem
          obtain ⟨hc, hk⟩ := hmem
          constructor
          · rw [hc]
            cases (resolutionPhase env).2.result <;> simp [outcomeEnum]
          · rw [hk]
            unfold clampConfidence
            constructor <;> [exact le_min (le_max_right _ _) (by norm_num); exact min_le_right _ _]
  refine ⟨main.1, ?_, main.2.1, main.2.2, ?_, rfl, fun q => rfl⟩
  · rcases main.1 with h | h | h <;> omega
  · intro r; cases r <;> rfl

/-- A settlement invocation on a SettlementRequested market whose discrete
resolution succeeds. -/
def envReportWitness : SettleEnv :=
  { marketIdPresent := true, configOk := true, status := 1, question := "Is BTC above 1?",
    discreteEnv := some
      { spec? := some (.DISCRETE "CRYPTO_PRICE"
          { name := "CoinGecko", endpoint := "https://api.coingecko.com/api/v3/simple/price", params := [] }
          "$.bitcoin.usd" ">" (.num 1)),
        searchOk := true, searchData := .null, apiOk := true,
        apiData := .obj [("bitcoin", .obj [("usd", .num 50000)])] },
    geminiKey := false, mockPick := true, judge := fun _ => .failure }

/-- C8 witness: the theorem applied to the `onReport 2 10000` submission of
a concrete discrete settlement. -/
theorem report_encoding_witness :
    ((2:Nat) = 1 ∨ (2:Nat) = 2 ∨ (2:Nat) = 3) ∧ (2:Nat) ≠ 0 ∧
    (0:Int) ≤ (10000:Int) ∧ (10000:Int) ≤ 10000 ∧
    (∀ r : Outcome, outcomeEnum r = mapOutcomeToUint r) ∧
    clampConfidence none = 0 ∧
    (∀ q : Int, clampConfidence (some q) = min (max q 0) 10000) :=
  report_encoding envReportWitness 2 10000 (by decide)

/-- A settlement invocation on a market whose ledger status is already
Settled (2): the discrete fetch throws, the key is present, the question is
untagged, the single judge fails. -/
def envSettled : SettleEnv :=
  { marketIdPresent := true, configOk := true, status := 2, question := "Will it rain?",
    discreteEnv := none, geminiKey := true, mockPick := true, judge := fun _ => .failure }

/-- C1 counterexample: on a market already Settled (status 2) the settle
handler does not reject — it answers success — and it still issues the
discrete resolution fetch, a judge call and an `onReport` submission, so
the claimed already-settled guard with zero transactions does not exist. -/
theorem settled_market_proceeds_counterexample :
    envSettled.status = 2 ∧
    (settleRun envSettled).2 = SettleOutcome.success 3 0 ∧
    SettleAction.onReport 3 0 ∈ (settleRun envSettled).1 ∧
    SettleAction.discreteCall ∈ (settleRun envSettled).1 ∧
    SettleAction.judgeCall 0 ∈ (settleRun envSettled).1 ∧
    (∀ st msg, (settleRun envSettled).2 ≠ SettleOutcome.rejected st msg) := by
  refine ⟨rfl, rfl, by decide, by decide, by decide, ?_⟩
  intro st msg h
  rw [show (settleRun envSettled).2 = SettleOutcome.success 3 0 from rfl] at h
  exact SettleOutcome.noConfusion h

/-- C1 amended: on a market whose status is Settled (2) the orchestrator
skips only the `requestSettlement` transaction (issued solely for status
Open); it does not reject, it still runs the discrete fetch, and it still
submits an `onReport` report — the ledger's own status check is the sole
double-settlement guard. -/
theorem settled_status_skips_request_but_submits (env : SettleEnv)
    (hm : env.marketIdPresent = true) (hc : env.configOk = true) (hs : env.status = 2) :
    SettleAction.requestSettlement ∉ (settleRun env).1 ∧
    SettleAction.discreteCall ∈ (settleRun env).1 ∧
    (∃ c k, SettleAction.onReport c k ∈ (settleRun env).1) ∧
    ∀ st msg, (settleRun env).2 ≠ SettleOutcome.rejected st msg := by
  unfold settleRun
  simp only [hm, hc, hs, Bool.not_true, Bool.false_eq_true, if_false, ite_false, reduceIte]
  rw [if_neg (by decide : ¬(2:Nat) = 0)]
  refine ⟨?_, ?_, ?_, ?_⟩
  · intro hmem
    simp only [List.nil_append, List.mem_append, List.mem_cons, List.mem_singleton] at hmem
    rcases hmem with ((h | h) | h) | h
    · exact SettleAction.noConfusion h
    · simp at h
    · rcases resolutionPhase_acts env _ h with ⟨i, hi⟩
      exact SettleAction.noConfusion hi
    · rcases h with h | h
      · exact SettleAction.noConfusion h
      · simp at h
  · simp
  · exact ⟨outcomeEnum (resolutionPhase env).2.result,
      clampConfidence (some (resolutionPhase env).2.confidence), by simp⟩
  · intro st msg h
    exact SettleOutcome.noConfusion h

/-- C1 witness: the amended theorem at the concrete Settled environment. -/
theorem settled_status_skips_request_but_submits_witness :
    SettleAction.requestSettlement ∉ (settleRun envSettled).1 ∧
    SettleAction.discreteCall ∈ (settleRun envSettled).1 ∧
    (∃ c k, SettleAction.onReport c k ∈ (settleRun envSettled).1) ∧
    ∀ st msg, (settleRun envSettled).2 ≠ SettleOutcome.rejected st msg :=
  settled_status_skips_request_but_submits envSettled rfl rfl rfl

/-! ## Claim C10: the admin path accepts only YES and NO -/

/-- The admin outcome encoding is always 1 or 2. -/
lemma adminOutcomeEnum_cases (v : JSVal) : adminOutcomeEnum v = 1 ∨ adminOutcomeEnum v = 2 := by
  cases v <;> simp [adminOutcomeEnum]
  rename_i s
  by_cases h : s = "YES" <;> simp [h]

/-- Audit writes are the only things in the audit action list. -/
lemma adminAuditActs_mem (env : AdminEnv) (a : AdminAction) (h : a ∈ adminAuditActs env) :
    a = .auditUpdateSettlement ∨ a = .auditInsertSettlement ∨
    a = .auditUpdateDemo ∨ a = .auditInsertDemo := by
  unfold adminAuditActs at h
  simp only [List.mem_append] at h
  rcases h with h | h <;> split at h <;> simp at h <;> simp [h]

/-- The ledger calls of a live status are among the three settle calls,
always at the encoded outcome and confidence 10000. -/
lemma adminLedgerActs_mem (oc st : Nat) (a : AdminAction) (h : a ∈ adminLedgerActs oc st) :
    a = .settleManually oc ∨ a = .requestSettlement ∨ a = .submitReport oc 10000 := by
  unfold adminLedgerActs at h
  split at h <;> try (split at h)
  all_goals simp at h
  all_goals first
    | (rcases h with h | h <;> simp [h])
    | simp [h]

/-- C10: the admin manual-settlement route accepts only the outcomes YES
and NO: any other outcome value is rejected before any ledger call or audit
write (an empty action list), with HTTP 400 whenever the password gate was
passed; and the outcome code of every manual settle or report the route can
ever issue is 1 (NO) or 2 (YES) at confidence 10000 — a market can never be
manually settled as Inconclusive (code 3) through this path. -/
theorem admin_accepts_only_yes_no :
    (∀ env : AdminEnv, isYesNoStr env.outcome = false →
      (adminRun env).1 = [] ∧
      (∃ st msg, (adminRun env).2 = AdminOutcome.rejected st msg) ∧
      (env.adminPassword = "admin" → ∃ msg, (adminRun env).2 = AdminOutcome.rejected 400 msg)) ∧
    (∀ (env : AdminEnv) (o : Nat),
      AdminAction.settleManually o ∈ (adminRun env).1 → o = 1 ∨ o = 2) ∧
    (∀ (env : AdminEnv) (o cf : Nat),
      AdminAction.submitReport o cf ∈ (adminRun env).1 → (o = 1 ∨ o = 2) ∧ cf = 10000) := by
  refine ⟨?_, ?_, ?_⟩
  · intro env hout
    unfold adminRun
    split
    · exact ⟨rfl, ⟨401, _, rfl⟩, fun hp => by simp_all [String.ext_iff]⟩
    · split
      · exact ⟨rfl, ⟨400, _, rfl⟩, fun _ => ⟨_, rfl⟩⟩
      · rw [if_pos (by simp [hout])]
        exact ⟨rfl, ⟨400, _, rfl⟩, fun _ => ⟨_, rfl⟩⟩
  · intro env o hmem
    unfold adminRun at hmem
    split at hmem <;> try simp at hmem
    split at hmem <;> try simp at hmem
    split at hmem <;> try simp at hmem
    split at hmem <;> try simp at hmem
    split at hmem <;> try simp at hmem
    split at hmem
    · simp only [List.mem_cons, List.mem_append] at hmem
      rcases hmem with h | h | h
      · exact AdminAction.noConfusion h
      · rcases adminLedgerActs_mem _ _ _ h with h | h | h
        · have := adminOutcomeEnum_cases env.outcome
          simp at h
          omega
        · exact AdminAction.noConfusion h
        · exact AdminAction.noConfusion h
      · rcases adminAuditActs_mem env _ h with h | h | h | h <;> exact AdminAction.noConfusion h
    · simp at hmem
  · intro env o cf hmem
    unfold adminRun at hmem
    split at hmem <;> try simp at hmem
    split at hmem <;> try simp at hmem
    split at hmem <;> try simp at hmem
    split at hmem <;> try simp at hmem
    split at hmem <;> try simp at hmem
    split at hmem
    · simp only [List.mem_cons, List.mem_append] at hmem
      rcases hmem with h | h | h
      · exact AdminAction.noConfusion h
      · rcases adminLedgerActs_mem _ _ _ h with h | h | h
        · exact AdminAction.noConfusion h
        · exact AdminAction.noConfusion h
        · have := adminOutcomeEnum_cases env.outcome
          simp at h
          omega
      · rcases adminAuditActs_mem env _ h with h | h | h | h <;> exact AdminAction.noConfusion h
    · simp at hmem

/-- An authenticated admin request attempting to settle as INCONCLUSIVE. -/
def envAdminInconclusive : AdminEnv :=
  { adminPassword := "admin", marketId := .str "5", outcome := .str "INCONCLUSIVE",
    source := .str "manual check", configOk := true, status := 3,
    settlementExists := false, demoExists := false }

/-- C10 witness: the theorem applied to the concrete INCONCLUSIVE request —
rejected with 400 and zero issued calls. -/
theorem admin_accepts_only_yes_no_witness :
    (adminRun envAdminInconclusive).1 = [] ∧
    ∃ msg, (adminRun envAdminInconclusive).2 = AdminOutcome.rejected 400 msg := by
  have h := admin_accepts_only_yes_no
  have h1 := h.1 envAdminInconclusive (by decide)
  exact ⟨h1.1, h1.2.2 rfl⟩
